import Mathlib

/-!
Verification of the resumable harvest-and-enrichment pipeline scripts
(`scripts/yelp.py`, `scripts/hunter.py`, `scripts/youtube.py`,
`scripts/instagram_combined.py`, `scripts/tiktok_hashtag_scraper.py`, `db.py`)
of the mvp_dashboard repository.

The Python code is shallowly embedded: floats are modelled as exact rationals,
Python `round(x, n)` and pandas `.round(n)` as round-half-to-even on rationals,
pandas data frames as lists of records, the relational run recorder (`db.py`)
as an explicit state value, and a raised exception as an `Except.error`
result.  All definitions are executable.
-/

/-! ## Python-style rounding -/

/-- Round a rational to the nearest integer, ties to the even integer —
the rounding mode of Python `round` and of pandas `.round`. -/
def pyRoundHalfEven (q : ℚ) : ℤ :=
  if q - ⌊q⌋ < 1/2 then ⌊q⌋
  else if 1/2 < q - ⌊q⌋ then ⌊q⌋ + 1
  else if ⌊q⌋ % 2 = 0 then ⌊q⌋ else ⌊q⌋ + 1

/-- Python `round(q, 2)`. -/
def round2 (q : ℚ) : ℚ := (pyRoundHalfEven (q * 100) : ℚ) / 100

/-- pandas `.round(3)`. -/
def round3 (q : ℚ) : ℚ := (pyRoundHalfEven (q * 1000) : ℚ) / 1000

/-- pandas `.clip(0, 1)`. -/
def clip01 (x : ℚ) : ℚ := min (max x 0) 1

/-! ## Scoring engine — `scripts/youtube.py` and `scripts/instagram_combined.py` -/

/-- `normalize_subscribers` (youtube.py lines 85-97) after the `int(subs)`
conversion: the four-band piecewise audience-size normalization. -/
def normalize_subscribers (s : ℤ) : ℚ :=
  if s ≤ 1000 then (s : ℚ) / 1000
  else if s ≤ 10000 then 0.1 + ((s : ℚ) - 1000) / 9000 * 0.4
  else if s ≤ 100000 then 0.5 + ((s : ℚ) - 10000) / 90000 * 0.4
  else 0.9 + min (((s : ℚ) - 100000) / 1000000) 0.1

/-- `calc_engagement` (youtube.py lines 100-107) after the float conversions:
`0.0` when the video count or the subscriber count is `0`, else
`round((tv / nv / s) * 100, 2)`. -/
def calc_engagement (tv nv s : ℚ) : ℚ :=
  if nv = 0 ∨ s = 0 then 0 else round2 (tv / nv / s * 100)

/-- `calc_final_score` (youtube.py lines 110-111):
`round(eng*0.4 + sub_score*100*0.3 + act_score*100*0.3, 2)`. -/
def calc_final_score (eng subScore actScore : ℚ) : ℚ :=
  round2 (eng * 0.4 + subScore * 100 * 0.3 + actScore * 100 * 0.3)

/-- The per-row `final_score` computed in youtube.py `main` (lines 263-273)
from the raw integer signals: engagement rate from views/videos/subscribers,
`subscriber_score = normalize_subscribers(subs).round(3)`,
`activity_score = (total_videos/500).clip(0,1).round(3)`, combined by
`calc_final_score`. -/
def youtube_final_score (tv nv subs : ℤ) : ℚ :=
  calc_final_score (calc_engagement (tv : ℚ) (nv : ℚ) (subs : ℚ))
    (round3 (normalize_subscribers subs))
    (round3 (clip01 ((nv : ℚ) / 500)))

/-- `normalize_followers` (instagram_combined.py lines 165-177) after the
`float(f)` conversion: the same four-band normalization over rationals. -/
def normalize_followers (f : ℚ) : ℚ :=
  if f ≤ 1000 then f / 1000
  else if f ≤ 10000 then 0.1 + (f - 1000) / 9000 * 0.4
  else if f ≤ 100000 then 0.5 + (f - 10000) / 90000 * 0.4
  else 0.9 + min ((f - 100000) / 1000000) 0.1

/-- The `engagement_rate` column of instagram_combined.py `main`
(lines 333-336): `round(((likes + comments) / views) * 100, 2) if views > 0 else 0`. -/
def insta_engagement_rate (likes comments views : ℚ) : ℚ :=
  if 0 < views then round2 ((likes + comments) / views * 100) else 0

/-- The `final_score` column of instagram_combined.py `main` (lines 338-341):
`round((engagement_rate / 100) * 0.4 + follower_score * 0.6, 2)` with
`follower_score = normalize_followers(followers)` (line 337, not rounded). -/
def instagram_final_score (likes comments views followers : ℚ) : ℚ :=
  round2 (insta_engagement_rate likes comments views / 100 * 0.4
    + normalize_followers followers * 0.6)

/-! ## Identity normalization — `to_domain` of `scripts/hunter.py` -/

/-- `SKIP_HOSTS` (hunter.py lines 52-59): the fixed deny-list of
non-business hosts. -/
def SKIP_HOSTS : List String :=
  ["facebook.com", "instagram.com", "linkedin.com", "twitter.com", "x.com",
   "tiktok.com", "youtube.com", "youtu.be",
   "goo.gl", "bit.ly", "tinyurl.com",
   "yelp.com",
   "www.facebook.com", "www.instagram.com", "www.linkedin.com", "www.twitter.com",
   "www.x.com", "www.tiktok.com", "www.youtube.com", "www.yelp.com"]

/-- The placeholder tokens `to_domain` rejects (hunter.py line 168). -/
def PLACEHOLDERS : List String := ["nan", "none", "-", "null"]

/-- Whitespace as recognised by Python `str.strip` / `str.split`
(ASCII range). -/
def isPySpace (c : Char) : Bool :=
  c = ' ' || c = '\t' || c = '\n' || c = '\x0d' || c = '\x0b' || c = '\x0c'

/-- Python `str.strip()` on a character list. -/
def pyStrip (l : List Char) : List Char :=
  ((l.dropWhile isPySpace).reverse.dropWhile isPySpace).reverse

/-- A character of the regex class `[a-zA-Z0-9+.-]` (hunter.py line 173). -/
def isSchemeChar (c : Char) : Bool :=
  c.isAlpha || c.isDigit || c = '+' || c = '.' || c = '-'

/-- Scans for the regex tail `[a-zA-Z0-9+.-]*://` of hunter.py line 173; the
class excludes the colon, so the first colon must start the `://`. -/
def schemeRest : List Char → Bool
  | ':' :: '/' :: '/' :: _ => true
  | c :: rest => isSchemeChar c && schemeRest rest
  | [] => false

/-- The regex match `^[a-zA-Z][a-zA-Z0-9+.-]*://` of hunter.py line 173. -/
def hasSchemeMatch : List Char → Bool
  | c :: rest => c.isAlpha && schemeRest rest
  | [] => false

/-- Everything after the first `://` — where `urlparse` starts the network
location for the scheme-bearing strings `to_domain` builds. -/
def afterSchemeSep : List Char → List Char
  | ':' :: '/' :: '/' :: rest => rest
  | _ :: rest => afterSchemeSep rest
  | [] => []

/-- `urlparse(s).netloc` for a string with a scheme and `://`: the characters
after `://` up to the first `/`, `?` or `#`. -/
def netlocOf (l : List Char) : List Char :=
  (afterSchemeSep l).takeWhile (fun c => c ≠ '/' && c ≠ '?' && c ≠ '#')

/-- The URL `to_domain` hands to `urlparse` (hunter.py lines 171-174): the
first whitespace-separated token of the stripped input, stripped again, with
`http://` prepended when the scheme regex does not match. -/
def hunterUrl (s : List Char) : List Char :=
  let tok := pyStrip (s.takeWhile (fun c => !isPySpace c))
  if hasSchemeMatch tok then tok else "http://".toList ++ tok

/-- The raw network location `urlparse` extracts for that URL. -/
def hunterNetloc (s : List Char) : List Char := netlocOf (hunterUrl s)

/-! The `try`/`except` of `to_domain` catches the `ValueError` that CPython's
`urlsplit` (3.11) raises while extracting the netloc: `Invalid IPv6 URL` for
a `[` or `]` without its partner, and — when a `[...]` pair is present — an
invalid bracketed host, which must be either an IPvFuture literal
(`v` + hex digits + `.` + a non-empty tail) or a valid IPv6 address per the
`ipaddress` module (whose rules the next definitions translate: hextets of
at most 4 hex digits, at most one `::`, an optional embedded IPv4 tail with
no leading zeros in its octets, an optional non-empty `%scope`).  The
remaining `urlsplit` error path, the NFKC check on non-ASCII netlocs, is
outside this ASCII-fragment model. -/

/-- A hex digit, as in `ipaddress`'s `_HEX_DIGITS`. -/
def isHexDigit (c : Char) : Bool :=
  c.isDigit || ('a' ≤ c && c ≤ 'f') || ('A' ≤ c && c ≤ 'F')

/-- `ipaddress._parse_hextet` succeeds: non-empty, at most 4 hex digits. -/
def isValidHextet (p : List Char) : Bool :=
  !p.isEmpty && p.length ≤ 4 && p.all isHexDigit

/-- Decimal value of a digit string. -/
def digitsToNat (p : List Char) : ℕ :=
  p.foldl (fun a c => a * 10 + (c.toNat - 48)) 0

/-- `ipaddress._parse_octet` succeeds: 1-3 ASCII digits, no leading zero
(except `0` itself), value at most 255. -/
def isValidIPv4Octet (p : List Char) : Bool :=
  !p.isEmpty && p.all Char.isDigit && p.length ≤ 3 &&
    !(decide (1 < p.length) && p.headD ' ' == '0') && digitsToNat p ≤ 255

/-- `ipaddress.IPv4Address` accepts the string: four valid octets. -/
def isValidIPv4 (l : List Char) : Bool :=
  let parts := l.splitOn '.'
  parts.length == 4 && parts.all isValidIPv4Octet

/-- `ipaddress.IPv6Address._ip_int_from_string` succeeds on the (scope-free)
address: split on `:` into at least 3 parts; a last part containing `.` must
be a valid IPv4 address (replaced by two hextets); then at most 9 parts, with
either no internal empty part (exactly 8 parts, all hextets) or exactly one
`::` (a leading/trailing empty part only next to it, at most 7 hextets in
total, all remaining parts hextets). -/
def isValidIPv6Addr (addr : List Char) : Bool :=
  if addr.isEmpty then false
  else
    let parts0 := addr.splitOn ':'
    if parts0.length < 3 then false
    else
      let lastP := parts0.getLastD []
      let replaced :=
        if lastP.contains '.' then
          if isValidIPv4 lastP then some (parts0.dropLast ++ [['0'], ['0']]) else none
        else some parts0
      match replaced with
      | none => false
      | some parts =>
        let n := parts.length
        if 9 < n then false
        else
          let empt := (List.range n).filter
            (fun i => decide (1 ≤ i) && decide (i + 1 < n) && (parts.getD i [' ']).isEmpty)
          match empt with
          | [] => n == 8 && parts.all isValidHextet
          | [i] =>
            let firstEmpty := (parts.getD 0 [' ']).isEmpty
            let lastEmpty := (parts.getD (n - 1) [' ']).isEmpty
            if firstEmpty && i ≠ 1 then false
            else if lastEmpty && i + 2 ≠ n then false
            else
              let hi := if firstEmpty then 0 else i
              let lo := if lastEmpty then 0 else n - i - 1
              if 7 < hi + lo then false
              else
                ((List.range hi).all fun j => isValidHextet (parts.getD j [' '])) &&
                ((List.range lo).all fun j => isValidHextet (parts.getD (n - lo + j) [' ']))
          | _ => false

/-- `ipaddress.IPv6Address` accepts the string: an optional single `%` with a
non-empty scope id, around a valid IPv6 address. -/
def isValidIPv6WithScope (h : List Char) : Bool :=
  match h.splitOn '%' with
  | [addr] => isValidIPv6Addr addr
  | [addr, scope] => !scope.isEmpty && isValidIPv6Addr addr
  | _ => false

/-- The IPvFuture regex `v[a-fA-F0-9]+\..+` of `_check_bracketed_host`. -/
def ipvFutureOk (h : List Char) : Bool :=
  match h with
  | 'v' :: rest =>
    let hexs := rest.takeWhile isHexDigit
    let after := rest.drop hexs.length
    !hexs.isEmpty &&
      (match after with
       | '.' :: tail => !tail.isEmpty
       | _ => false)
  | _ => false

/-- `netloc.partition("[")[2].partition("]")[0]`: the text between the first
`[` and the following `]`. -/
def bracketedHost (netloc : List Char) : List Char :=
  ((netloc.dropWhile (fun c => c ≠ '[')).drop 1).takeWhile (fun c => c ≠ ']')

/-- `urllib.parse._check_bracketed_host` passes: an IPvFuture literal when
the host starts with `v`, otherwise a valid non-IPv4 `ipaddress` address,
i.e. a valid IPv6 address (an IPv4 address in brackets also raises). -/
def checkBracketedHostOk (bh : List Char) : Bool :=
  match bh with
  | 'v' :: _ => ipvFutureOk bh
  | _ => isValidIPv6WithScope bh

/-- `urlsplit` raises `ValueError` on this netloc: a bracket without its
partner, or a `[...]` pair whose bracketed host fails validation. -/
def urlsplitRaises (netloc : List Char) : Bool :=
  let hasL := netloc.contains '['
  let hasR := netloc.contains ']'
  (hasL && !hasR) || (hasR && !hasL) ||
    (hasL && hasR && !(checkBracketedHostOk (bracketedHost netloc)))

/-- The host computation of `to_domain` (hunter.py lines 178-181) when
`urlparse` returns: strip + lowercase the netloc, drop everything from the
first `:`, then `lstrip("www.")` — which drops every leading character in
the set `w`/`.` (the Python set semantics of `lstrip`, not prefix
removal). -/
def hunterHost (s : List Char) : List Char :=
  let host0 := (pyStrip (hunterNetloc s)).map Char.toLower
  let host1 := host0.takeWhile (fun c => c ≠ ':')
  host1.dropWhile (fun c => c = 'w' || c = '.')

/-- `to_domain` (hunter.py lines 163-187).  `none` stands for a Python `None`
input and for every `return None`.  The `try`/`except` around `urlparse` is
the `urlsplitRaises` branch (the `except` returns `None`); everywhere else
the function is total by construction, matching the no-throw contract. -/
def to_domain (value : Option String) : Option String :=
  match value with
  | none => none
  | some v =>
    if pyStrip v.toList = [] then none
    else if String.mk ((pyStrip v.toList).map Char.toLower) ∈ PLACEHOLDERS then none
    else if urlsplitRaises (hunterNetloc (pyStrip v.toList)) then none
    else
      if hunterHost (pyStrip v.toList) = [] then none
      else if String.mk (hunterHost (pyStrip v.toList)) ∈ SKIP_HOSTS then none
      else some (String.mk (hunterHost (pyStrip v.toList)))

/-! ## Merge/dedup engine — `save_to_master` of `scripts/yelp.py` and the
merge step of youtube.py `main` -/

/-- One master-dataset row, reduced to its Identity Key column
(`Yelp_URL` in yelp.py, `channel_url` in youtube.py) and an opaque payload
standing for the remaining columns. -/
structure SRow where
  key : String
  val : ℤ
deriving DecidableEq

/-- pandas `drop_duplicates(subset=[key], keep="first")`: keep the first
occurrence of every key, in order. -/
def dedupByKeyFirst : List SRow → List SRow
  | [] => []
  | x :: xs => x :: dedupByKeyFirst (xs.filter (fun y => y.key ≠ x.key))
termination_by l => l.length
decreasing_by
  simp only [List.length_cons]
  exact Nat.lt_succ_of_le (List.length_filter_le _ _)

/-- The merge of `save_to_master` (yelp.py lines 151-166) and of youtube.py
`main` lines 275-280: `pd.concat([new, existing])` — incoming before
existing — then `drop_duplicates(subset=[key], keep="first")`. -/
def merge (existing incoming : List SRow) : List SRow :=
  dedupByKeyFirst (incoming ++ existing)

/-! ## Run-history cap — `scripts/youtube.py` -/

/-- The history update of youtube.py `main` (lines 320-332):
`history.append(entry)`, then `history = history[-50:]` before
`save_history(history)`.  Python `l[-50:]` keeps the last 50 elements. -/
def append_run_history {α : Type} (history : List α) (entry : α) : List α :=
  (history ++ [entry]).drop ((history ++ [entry]).length - 50)

/-! ## Progress store and run recorder — `scripts/hunter.py`,
`scripts/tiktok_hashtag_scraper.py`, `db.py` -/

/-- Insert a string into a `≤`-sorted list, keeping it sorted. -/
def insertSortedStr (x : String) : List String → List String
  | [] => [x]
  | y :: ys => if x ≤ y then x :: y :: ys else y :: insertSortedStr x ys

/-- Python `sorted(...)` on a list of strings (insertion sort). -/
def sortStr (l : List String) : List String := l.foldr insertSortedStr []

/-- The outcome of one `hunter_domain_search` call (hunter.py lines 190-207):
an `_error` payload, or a data payload reduced to its person-email and
generic-email counts — all `main` uses to pick the row status. -/
inductive ApiResult where
  | apiError (msg : String)
  | payload (emails generics : ℕ)
deriving DecidableEq

/-- One input row of the hunter job: the `Website` cell (`none` for Python
`None`), the `Yelp_URL` cell and any pre-existing `hunter_status` /
`hunter_domain` values (empty string when the column was just created). -/
structure HunterRow where
  website : Option String
  yelpUrl : String
  hunterStatus : String
  hunterDomain : String
deriving DecidableEq

/-- `FINAL_STATUSES` (hunter.py lines 61-67). -/
def FINAL_STATUSES : List String :=
  ["person_email_found", "generic_email_only", "no_emails_found",
   "skipped_blank_or_nonbusiness_url", "api_error"]

/-- `row_already_done` (hunter.py lines 231-244). -/
def row_already_done (processed : List String) (row : HunterRow) : Bool :=
  (row.yelpUrl != "" && processed.contains row.yelpUrl)
    || FINAL_STATUSES.contains row.hunterStatus
    || (row.hunterDomain != "" && row.hunterStatus != "")

/-- The mutable state of the enrichment loop of hunter.py `main`
(lines 313-316): the `processed_urls` set (as a duplicate-free list), the
per-domain response `cache`, the `enriched_now` counter and the `live_rows`
accumulator (each live row reduced to yelp-url, domain, status). -/
structure LoopState where
  processed : List String
  cache : List (String × ApiResult)
  enrichedNow : ℕ
  liveRows : List (String × String × String)
deriving DecidableEq

/-- Python `set.add` guarded by `if yelp_url:` (hunter.py lines 330-331 and
400-401): add the url unless it is blank or already present. -/
def addProcessed (processed : List String) (u : String) : List String :=
  if u = "" then processed
  else if processed.contains u then processed
  else processed ++ [u]

/-- The status picked in hunter.py lines 380-396 from the payload contents. -/
def statusOfPayload (emails generics : ℕ) : String :=
  if emails ≠ 0 then "person_email_found"
  else if generics ≠ 0 then "generic_email_only"
  else "no_emails_found"

/-- One iteration of the enrichment loop of hunter.py `main`
(lines 318-414): skip rows that are already done; rows without a usable
domain are marked `skipped_blank_or_nonbusiness_url` and their yelp url
recorded as processed; otherwise the domain is looked up (through the cache);
an `_error` response records `api_error` without touching `processed_urls`;
a data response records its status and the yelp url. -/
def hunterStep (api : String → ApiResult) (st : LoopState) (row : HunterRow) :
    LoopState :=
  if row_already_done st.processed row then st
  else
    match to_domain row.website with
    | none =>
      { st with
        processed := addProcessed st.processed row.yelpUrl
        enrichedNow := st.enrichedNow + 1
        liveRows := st.liveRows ++
          [(row.yelpUrl, "", "skipped_blank_or_nonbusiness_url")] }
    | some domain =>
      let cached := st.cache.lookup domain
      let data := match cached with
        | some d => d
        | none => api domain
      let cache := match cached with
        | some _ => st.cache
        | none => st.cache ++ [(domain, data)]
      match data with
      | ApiResult.apiError _ =>
        { st with
          cache := cache
          enrichedNow := st.enrichedNow + 1
          liveRows := st.liveRows ++ [(row.yelpUrl, domain, "api_error")] }
      | ApiResult.payload emails generics =>
        { st with
          cache := cache
          processed := addProcessed st.processed row.yelpUrl
          enrichedNow := st.enrichedNow + 1
          liveRows := st.liveRows ++
            [(row.yelpUrl, domain, statusOfPayload emails generics)] }

/-- A row of the `runs` table of db.py (columns the scripts touch). -/
structure RunRecord where
  id : ℕ
  source : String
  status : String
deriving DecidableEq

/-- The relational store of db.py: the `runs` table (with its id sequence)
and the `events` table (one row per inserted data-frame row). -/
structure DBState where
  nextId : ℕ
  runs : List RunRecord
  events : List (ℕ × String × (String × String × String))
deriving DecidableEq

/-- `start_run` (db.py lines 119-131): insert a `runs` row with status
`running` and return its fresh id. -/
def start_run (db : DBState) (source : String) : ℕ × DBState :=
  (db.nextId,
   { db with
     nextId := db.nextId + 1
     runs := db.runs ++ [⟨db.nextId, source, "running"⟩] })

/-- `finish_run` (db.py lines 134-156): update the status of the run row
with the given id. -/
def finish_run (db : DBState) (id : ℕ) (status : String) : DBState :=
  { db with
    runs := db.runs.map fun r => if r.id = id then ⟨r.id, r.source, status⟩ else r }

/-- `insert_df` (db.py lines 182-209): append one `events` row per
data-frame row. -/
def insert_df (db : DBState) (id : ℕ) (source : String)
    (rows : List (String × String × String)) : DBState :=
  { db with events := db.events ++ rows.map fun r => (id, source, r) }

/-- The hunter progress blob (hunter.py lines 143-148). -/
structure HunterProgress where
  processedYelpUrls : List String
  totalRuns : ℕ
  totalRowsEnriched : ℕ
deriving DecidableEq

/-- The environment of one hunter run: the `YELP_INPUT_GCS` value, whether
the download / local file / required columns succeed or exist, the parsed
input rows, and the Hunter API as a response function. -/
structure HunterEnv where
  yelpInputGcs : String
  downloadOk : Bool
  inputExists : Bool
  hasWebsiteCol : Bool
  hasYelpUrlCol : Bool
  rows : List HunterRow
  api : String → ApiResult

/-- hunter.py `main` (lines 258-446): `start_run`, then the fatal
precondition checks of lines 263-279 in order.  Each of those checks is a
`raise SystemExit(...)`, and `SystemExit` derives from `BaseException`, so
the `except Exception:` handler of lines 444-446 does **not** catch it:
`finish_run(run_id, "error")` is never executed, the run row keeps its
initial status `running`, and the exception propagates to the caller with
nothing else written.  On the success path the enrichment loop runs, live
rows are inserted, the progress blob is rewritten
(`processed_yelp_urls = sorted(list(processed_urls))`, counters bumped,
lines 432-436) and the run is marked `ok`.  The returned triple is the
raised-or-ok outcome, the progress blob as persisted, and the relational
store. -/
def hunter_main (env : HunterEnv) (store : HunterProgress) (db : DBState) :
    Except String Unit × HunterProgress × DBState :=
  let r := start_run db "hunter"
  let runId := r.1
  let db1 := r.2
  if env.yelpInputGcs = "" then
    (Except.error "Missing YELP_INPUT_GCS. Select a Yelp file in the dashboard first.",
     store, db1)
  else if env.downloadOk = false then
    (Except.error "Could not download input", store, db1)
  else if env.inputExists = false then
    (Except.error "Input file not found", store, db1)
  else if env.hasWebsiteCol = false then
    (Except.error "Column Website not found in input file", store, db1)
  else if env.hasYelpUrlCol = false then
    (Except.error "Column Yelp_URL not found in input file", store, db1)
  else
    let final := env.rows.foldl (hunterStep env.api)
      ⟨store.processedYelpUrls.dedup, [], 0, []⟩
    let db2 := if final.liveRows = [] then db1
      else insert_df db1 runId "hunter_enriched" final.liveRows
    let store2 : HunterProgress :=
      { processedYelpUrls := sortStr final.processed
        totalRuns := store.totalRuns + 1
        totalRowsEnriched := store.totalRowsEnriched + final.enrichedNow }
    (Except.ok (), store2, finish_run db2 runId "ok")

/-- The progress write-back of tiktok_hashtag_scraper.py `main`
(lines 366-369): `processed_usernames = sorted(list(set(old + processed_now)))`. -/
def tiktok_update_processed (old processedNow : List String) : List String :=
  sortStr ((old ++ processedNow).dedup)

/-- A concrete hunter environment whose preconditions all fail (no
`YELP_INPUT_GCS`), used to instantiate the fatal-precondition theorem. -/
def hunterEnvFatal : HunterEnv :=
  { yelpInputGcs := ""
    downloadOk := false
    inputExists := false
    hasWebsiteCol := false
    hasYelpUrlCol := false
    rows := []
    api := fun _ => ApiResult.apiError "request_failed" }

/-- A concrete hunter environment whose preconditions all hold, used to
instantiate the progress-monotonicity theorem. -/
def hunterEnvOk : HunterEnv :=
  { yelpInputGcs := "gs://bucket/outputs/yelp/file.xlsx"
    downloadOk := true
    inputExists := true
    hasWebsiteCol := true
    hasYelpUrlCol := true
    rows := []
    api := fun _ => ApiResult.apiError "request_failed" }

/-! ## Helper lemmas: rounding -/

theorem pyRoundHalfEven_intCast (n : ℤ) : pyRoundHalfEven (n : ℚ) = n := by
  unfold pyRoundHalfEven
  norm_num

theorem pyRoundHalfEven_nonneg (q : ℚ) (h : 0 ≤ q) : 0 ≤ pyRoundHalfEven q := by
  unfold pyRoundHalfEven
  have hf : (0:ℤ) ≤ ⌊q⌋ := Int.floor_nonneg.mpr h
  split_ifs <;> omega

theorem pyRoundHalfEven_le (q : ℚ) (n : ℤ) (h : q ≤ n) : pyRoundHalfEven q ≤ n := by
  have hfle : ⌊q⌋ ≤ n := by
    have := Int.floor_le_floor h
    simpa using this
  unfold pyRoundHalfEven
  have hq : (⌊q⌋ : ℚ) ≤ q := Int.floor_le q
  split_ifs with h1 h2 h3
  · exact hfle
  · have h6 : ⌊q⌋ < n := by
      by_contra hc
      push_neg at hc
      have : (n : ℚ) ≤ (⌊q⌋ : ℚ) := by exact_mod_cast hc
      linarith
    omega
  · exact hfle
  · have h6 : ⌊q⌋ < n := by
      by_contra hc
      push_neg at hc
      have : (n : ℚ) ≤ (⌊q⌋ : ℚ) := by exact_mod_cast hc
      linarith
    omega

theorem round2_eq_of_int (q : ℚ) (n : ℤ) (h : q * 100 = (n : ℚ)) :
    round2 q = (n : ℚ) / 100 := by
  unfold round2
  rw [h, pyRoundHalfEven_intCast]

theorem round3_eq_of_int (q : ℚ) (n : ℤ) (h : q * 1000 = (n : ℚ)) :
    round3 q = (n : ℚ) / 1000 := by
  unfold round3
  rw [h, pyRoundHalfEven_intCast]

theorem round2_nonneg (q : ℚ) (h : 0 ≤ q) : 0 ≤ round2 q := by
  unfold round2
  have : (0:ℤ) ≤ pyRoundHalfEven (q * 100) :=
    pyRoundHalfEven_nonneg _ (by positivity)
  positivity

theorem round2_le_int (q : ℚ) (n : ℤ) (h : q ≤ n) : round2 q ≤ n := by
  unfold round2
  have h1 : q * 100 ≤ ((n * 100 : ℤ) : ℚ) := by
    push_cast
    linarith
  have h2 : pyRoundHalfEven (q * 100) ≤ n * 100 := pyRoundHalfEven_le _ _ h1
  rw [div_le_iff₀ (by norm_num : (0:ℚ) < 100)]
  calc (pyRoundHalfEven (q * 100) : ℚ) ≤ ((n * 100 : ℤ) : ℚ) := by exact_mod_cast h2
    _ = (n : ℚ) * 100 := by push_cast; ring

/-! ## Helper lemmas: audience-size normalization -/

theorem normalize_subscribers_eq_followers (s : ℤ) :
    normalize_subscribers s = normalize_followers (s : ℚ) := by
  unfold normalize_subscribers normalize_followers
  have h1 : (s : ℚ) ≤ 1000 ↔ s ≤ 1000 := by exact_mod_cast Iff.rfl
  have h2 : (s : ℚ) ≤ 10000 ↔ s ≤ 10000 := by exact_mod_cast Iff.rfl
  have h3 : (s : ℚ) ≤ 100000 ↔ s ≤ 100000 := by exact_mod_cast Iff.rfl
  simp only [h1, h2, h3]

theorem nf_band1 (f : ℚ) (h : f ≤ 1000) : normalize_followers f = f / 1000 := by
  unfold normalize_followers
  rw [if_pos h]

theorem nf_band2 (f : ℚ) (h1 : 1000 < f) (h2 : f ≤ 10000) :
    normalize_followers f = 0.1 + (f - 1000) / 9000 * 0.4 := by
  unfold normalize_followers
  rw [if_neg (by linarith), if_pos h2]

theorem nf_band3 (f : ℚ) (h1 : 10000 < f) (h2 : f ≤ 100000) :
    normalize_followers f = 0.5 + (f - 10000) / 90000 * 0.4 := by
  unfold normalize_followers
  rw [if_neg (by linarith), if_neg (by linarith), if_pos h2]

theorem nf_band4 (f : ℚ) (h1 : 100000 < f) :
    normalize_followers f = 0.9 + min ((f - 100000) / 1000000) 0.1 := by
  unfold normalize_followers
  rw [if_neg (by linarith), if_neg (by linarith), if_neg (by linarith)]

theorem nf_band4m (f : ℚ) (h1 : 100000 < f) (h2 : f ≤ 200000) :
    normalize_followers f = 0.9 + (f - 100000) / 1000000 := by
  rw [nf_band4 f h1, min_eq_left (by linarith : (f - 100000) / 1000000 ≤ 0.1)]

theorem normalize_followers_bounds (f : ℚ) (h : 0 ≤ f) :
    0 ≤ normalize_followers f ∧ normalize_followers f ≤ 1 := by
  rcases le_or_lt f 1000 with h1 | h1
  · rw [nf_band1 f h1]
    constructor <;> linarith
  rcases le_or_lt f 10000 with h2 | h2
  · rw [nf_band2 f h1 h2]
    constructor <;> linarith
  rcases le_or_lt f 100000 with h3 | h3
  · rw [nf_band3 f h2 h3]
    constructor <;> linarith
  rw [nf_band4 f h3]
  constructor
  · have : (0:ℚ) ≤ min ((f - 100000) / 1000000) 0.1 :=
      le_min (by linarith) (by norm_num)
    linarith
  · have : min ((f - 100000) / 1000000) 0.1 ≤ 0.1 := min_le_right _ _
    linarith

theorem normalize_followers_strict_band1 (a b : ℚ)
    (hab : a < b) (hb : b ≤ 1000) :
    normalize_followers a < normalize_followers b := by
  rw [nf_band1 a (by linarith), nf_band1 b hb]
  linarith

theorem normalize_followers_strict_mid (a b : ℚ)
    (ha : 1000 < a) (hab : a < b) (hb : b ≤ 200000) :
    normalize_followers a < normalize_followers b := by
  rcases le_or_lt a 10000 with ha2 | ha2
  · rw [nf_band2 a ha ha2]
    rcases le_or_lt b 10000 with hb2 | hb2
    · rw [nf_band2 b (by linarith) hb2]
      linarith
    rcases le_or_lt b 100000 with hb3 | hb3
    · rw [nf_band3 b hb2 hb3]
      linarith
    · rw [nf_band4m b hb3 hb]
      linarith
  rcases le_or_lt a 100000 with ha3 | ha3
  · rw [nf_band3 a ha2 ha3]
    rcases le_or_lt b 100000 with hb3 | hb3
    · rw [nf_band3 b (by linarith) hb3]
      linarith
    · rw [nf_band4m b hb3 hb]
      linarith
  · rw [nf_band4m a ha3 (by linarith), nf_band4m b (by linarith) hb]
    linarith

theorem normalize_followers_saturated (f : ℚ) (h : 200000 ≤ f) :
    normalize_followers f = 1 := by
  rw [nf_band4 f (by linarith),
      min_eq_right (by linarith : (0.1:ℚ) ≤ (f - 100000) / 1000000)]
  norm_num

theorem insta_engagement_rate_nonneg (likes comments views : ℚ)
    (hl : 0 ≤ likes) (hc : 0 ≤ comments) :
    0 ≤ insta_engagement_rate likes comments views := by
  unfold insta_engagement_rate
  split_ifs with h
  · apply round2_nonneg
    positivity
  · exact le_refl 0

/-! ## Helper lemmas: merge/dedup -/

theorem dedupByKeyFirst_sublist (l : List SRow) : (dedupByKeyFirst l).Sublist l := by
  induction l using dedupByKeyFirst.induct with
  | case1 => simp [dedupByKeyFirst]
  | case2 x xs ih =>
    rw [dedupByKeyFirst]
    exact (ih.trans (List.filter_sublist xs)).cons₂ x

theorem dedupByKeyFirst_length_le (l : List SRow) :
    (dedupByKeyFirst l).length ≤ l.length :=
  (dedupByKeyFirst_sublist l).length_le

theorem dedupByKeyFirst_countP (k : String) (l : List SRow) :
    (dedupByKeyFirst l).countP (fun r => r.key == k) =
      if k ∈ l.map SRow.key then 1 else 0 := by
  induction l using dedupByKeyFirst.induct with
  | case1 => simp [dedupByKeyFirst]
  | case2 x xs ih =>
    rw [dedupByKeyFirst]
    by_cases hk : x.key = k
    · rw [List.countP_cons_of_pos _ _ (by simp [hk])]
      have hzero : (dedupByKeyFirst (xs.filter (fun y => y.key ≠ x.key))).countP
          (fun r => r.key == k) = 0 := by
        rw [ih]
        simp only [List.mem_map]
        rw [if_neg]
        rintro ⟨r, hr, hrk⟩
        have := List.of_mem_filter hr
        simp only [decide_eq_true_eq] at this
        exact this (hrk.trans hk.symm)
      rw [hzero]
      simp [hk]
    · rw [List.countP_cons_of_neg _ _ (by simp [hk])]
      rw [ih]
      have hmem : (k ∈ (xs.filter (fun y => y.key ≠ x.key)).map SRow.key) ↔
          (k ∈ xs.map SRow.key) := by
        simp only [List.mem_map, List.mem_filter, decide_eq_true_eq]
        constructor
        · rintro ⟨r, ⟨hr, _⟩, hrk⟩
          exact ⟨r, hr, hrk⟩
        · rintro ⟨r, hr, hrk⟩
          exact ⟨r, ⟨hr, fun h => hk (h ▸ hrk ▸ rfl)⟩, hrk⟩
      have hxs : k ∈ (x :: xs).map SRow.key ↔ k ∈ xs.map SRow.key := by
        simp only [List.map_cons, List.mem_cons]
        constructor
        · rintro (h | h)
          · exact absurd h.symm hk
          · exact h
        · exact Or.inr
      by_cases h2 : k ∈ xs.map SRow.key
      · rw [if_pos (hmem.mpr h2), if_pos (hxs.mpr h2)]
      · rw [if_neg (fun hc => h2 (hmem.mp hc)), if_neg (fun hc => h2 (hxs.mp hc))]

theorem find?_filter_of_imp {α : Type} (l : List α) (p q : α → Bool)
    (h : ∀ a, p a = true → q a = true) : (l.filter q).find? p = l.find? p := by
  induction l with
  | nil => simp
  | cons x xs ih =>
    by_cases hq : q x
    · rw [List.filter_cons_of_pos hq]
      by_cases hp : p x
      · rw [List.find?_cons_of_pos _ hp, List.find?_cons_of_pos _ hp]
      · rw [List.find?_cons_of_neg _ hp, List.find?_cons_of_neg _ hp, ih]
    · have hp : ¬ p x = true := fun hc => hq (h x hc)
      rw [List.filter_cons_of_neg hq, List.find?_cons_of_neg _ hp, ih]

theorem dedupByKeyFirst_find? (k : String) (l : List SRow) :
    (dedupByKeyFirst l).find? (fun r => r.key == k) =
      l.find? (fun r => r.key == k) := by
  induction l using dedupByKeyFirst.induct with
  | case1 => simp [dedupByKeyFirst]
  | case2 x xs ih =>
    rw [dedupByKeyFirst]
    by_cases hk : x.key = k
    · rw [List.find?_cons_of_pos _ (by simp [hk]), List.find?_cons_of_pos _ (by simp [hk])]
    · rw [List.find?_cons_of_neg _ (by simp [hk]), List.find?_cons_of_neg _ (by simp [hk])]
      rw [ih]
      apply find?_filter_of_imp
      intro a ha
      simp only [beq_iff_eq] at ha
      simp only [ne_eq, decide_eq_true_eq]
      exact fun h => hk (h ▸ ha)

theorem dedupByKeyFirst_mem_keys (k : String) (l : List SRow) :
    k ∈ (dedupByKeyFirst l).map SRow.key ↔ k ∈ l.map SRow.key := by
  constructor
  · intro h
    exact ((dedupByKeyFirst_sublist l).map SRow.key).mem h
  · intro h
    have h1 : 0 < (dedupByKeyFirst l).countP (fun r => r.key == k) := by
      rw [dedupByKeyFirst_countP, if_pos h]
      norm_num
    rw [List.countP_pos_iff] at h1
    obtain ⟨r, hr, hrk⟩ := h1
    simp only [beq_iff_eq] at hrk
    exact List.mem_map.mpr ⟨r, hr, hrk⟩

/-! ## Helper lemmas: sorting and the hunter loop -/

theorem mem_insertSortedStr (a x : String) (l : List String) :
    a ∈ insertSortedStr x l ↔ a = x ∨ a ∈ l := by
  induction l with
  | nil => simp [insertSortedStr]
  | cons y ys ih =>
    unfold insertSortedStr
    split_ifs with h
    · simp
    · simp only [List.mem_cons, ih]
      tauto

theorem mem_sortStr (a : String) (l : List String) : a ∈ sortStr l ↔ a ∈ l := by
  induction l with
  | nil => simp [sortStr]
  | cons x xs ih =>
    unfold sortStr at *
    simp only [List.foldr_cons, mem_insertSortedStr, ih, List.mem_cons]

theorem mem_addProcessed (u x : String) (l : List String) (hu : u ∈ l) :
    u ∈ addProcessed l x := by
  unfold addProcessed
  split_ifs <;> simp [hu]

theorem hunterStep_processed_mono (api : String → ApiResult) (st : LoopState)
    (row : HunterRow) : ∀ u ∈ st.processed, u ∈ (hunterStep api st row).processed := by
  intro u hu
  unfold hunterStep
  split_ifs with h
  · exact hu
  · cases to_domain row.website with
    | none => exact mem_addProcessed _ _ _ hu
    | some d =>
      simp only []
      cases hc : (st.cache.lookup d) with
      | none =>
        cases henv : api d with
        | apiError e => simp [hc, henv, hu]
        | payload em ge => simp [hc, henv, mem_addProcessed _ _ _ hu]
      | some data =>
        cases data with
        | apiError e => simp [hc, hu]
        | payload em ge => simp [hc, mem_addProcessed _ _ _ hu]

theorem foldl_hunterStep_processed_mono (api : String → ApiResult)
    (rows : List HunterRow) (st : LoopState) :
    ∀ u ∈ st.processed, u ∈ (rows.foldl (hunterStep api) st).processed := by
  induction rows generalizing st with
  | nil => intro u hu; simpa using hu
  | cons r rs ih =>
    intro u hu
    exact ih _ u (hunterStep_processed_mono api st r u hu)

/-! ## Claim theorems -/

/-- Claim C1: evaluation of the fatal-precondition branches of hunter.py
`main`.  When a fatal precondition fails before any fetching begins (missing
`YELP_INPUT_GCS`, failed download, missing input file, or a missing
`Website` / `Yelp_URL` column), the failure does propagate to the caller and
no partial progress is persisted (the progress blob and the events table are
untouched) — but, contrary to the claim, the run record started by
`start_run` is **not** updated to terminal status `error`: the checks raise
`SystemExit`, which the `except Exception:` handler does not catch, so
`finish_run` never runs and the run row stays in non-terminal status
`running`. -/
theorem hunter_fatal_precondition_run_stays_running (env : HunterEnv)
    (store : HunterProgress) (db : DBState)
    (hfail : env.yelpInputGcs = "" ∨ env.downloadOk = false ∨ env.inputExists = false ∨
      env.hasWebsiteCol = false ∨ env.hasYelpUrlCol = false) :
    (∃ msg, (hunter_main env store db).1 = Except.error msg) ∧
    (hunter_main env store db).2.1 = store ∧
    (hunter_main env store db).2.2.events = db.events ∧
    (hunter_main env store db).2.2.runs =
      db.runs ++ [⟨db.nextId, "hunter", "running"⟩] := by
  simp only [hunter_main]
  split_ifs with h1 h2 h3 h4 h5 h6
  · exact ⟨⟨_, rfl⟩, rfl, rfl, rfl⟩
  · exact ⟨⟨_, rfl⟩, rfl, rfl, rfl⟩
  · exact ⟨⟨_, rfl⟩, rfl, rfl, rfl⟩
  · exact ⟨⟨_, rfl⟩, rfl, rfl, rfl⟩
  · exact ⟨⟨_, rfl⟩, rfl, rfl, rfl⟩
  · exact absurd hfail (by simp [h1, h2, h3, h4, h5])
  · exact absurd hfail (by simp [h1, h2, h3, h4, h5])

/-- Claim C1, witness: the theorem applied to a concrete environment with no
`YELP_INPUT_GCS`, an empty store and a fresh database — the run row the
failed run leaves behind has status `running`, not `error`. -/
theorem hunter_fatal_precondition_run_stays_running_witness :
    (∃ msg, (hunter_main hunterEnvFatal ⟨[], 0, 0⟩ ⟨0, [], []⟩).1 = Except.error msg) ∧
    (hunter_main hunterEnvFatal ⟨[], 0, 0⟩ ⟨0, [], []⟩).2.1 = ⟨[], 0, 0⟩ ∧
    (hunter_main hunterEnvFatal ⟨[], 0, 0⟩ ⟨0, [], []⟩).2.2.events =
      (⟨0, [], []⟩ : DBState).events ∧
    (hunter_main hunterEnvFatal ⟨[], 0, 0⟩ ⟨0, [], []⟩).2.2.runs =
      (⟨0, [], []⟩ : DBState).runs ++
        [⟨(⟨0, [], []⟩ : DBState).nextId, "hunter", "running"⟩] :=
  hunter_fatal_precondition_run_stays_running hunterEnvFatal ⟨[], 0, 0⟩ ⟨0, [], []⟩
    (Or.inl rfl)

/-- Claim C2, counterexample: the audience normalization is not strictly
increasing and its first band is not a disjoint low sub-range — a count of
1000 scores 1.0 (the top of the whole scale) while 1001 scores about 0.100,
in both the YouTube and the Instagram variant. -/
theorem normalize_subscribers_not_strictly_increasing :
    (1000 : ℤ) < 1001 ∧
    normalize_subscribers 1000 = 1 ∧
    normalize_subscribers 1001 < normalize_subscribers 1000 ∧
    normalize_followers 1001 < normalize_followers 1000 := by
  refine ⟨by norm_num, ?_, ?_, ?_⟩
  · norm_num [normalize_subscribers]
  · norm_num [normalize_subscribers]
  · norm_num [normalize_followers]

/-- Claim C2, amended: both audience normalizations are bounded into `[0,1]`
for every non-negative count, strictly increasing within the first band
(`0..1000`) and across the region `1000 < a < b ≤ 200000`, and constant at
exactly `1.0` from `200000` on (where the `+0.1` cap saturates); but the
claimed global strict monotonicity and band disjointness fail, because the
first band `≤ 1000` is mapped onto all of `[0,1]` (see the counterexample). -/
theorem audience_normalization_amended :
    (∀ s : ℤ, 0 ≤ s → 0 ≤ normalize_subscribers s ∧ normalize_subscribers s ≤ 1) ∧
    (∀ f : ℚ, 0 ≤ f → 0 ≤ normalize_followers f ∧ normalize_followers f ≤ 1) ∧
    (∀ a b : ℤ, a < b → b ≤ 1000 →
      normalize_subscribers a < normalize_subscribers b) ∧
    (∀ a b : ℤ, 1000 < a → a < b → b ≤ 200000 →
      normalize_subscribers a < normalize_subscribers b) ∧
    (∀ s : ℤ, 200000 ≤ s → normalize_subscribers s = 1) ∧
    (∀ a b : ℚ, 1000 < a → a < b → b ≤ 200000 →
      normalize_followers a < normalize_followers b) := by
  refine ⟨?_, normalize_followers_bounds, ?_, ?_, ?_, normalize_followers_strict_mid⟩
  · intro s hs
    rw [normalize_subscribers_eq_followers]
    exact normalize_followers_bounds _ (by exact_mod_cast hs)
  · intro a b hab hb
    rw [normalize_subscribers_eq_followers, normalize_subscribers_eq_followers]
    exact normalize_followers_strict_band1 _ _ (by exact_mod_cast hab) (by exact_mod_cast hb)
  · intro a b ha hab hb
    rw [normalize_subscribers_eq_followers, normalize_subscribers_eq_followers]
    exact normalize_followers_strict_mid _ _ (by exact_mod_cast ha)
      (by exact_mod_cast hab) (by exact_mod_cast hb)
  · intro s hs
    rw [normalize_subscribers_eq_followers]
    exact normalize_followers_saturated _ (by exact_mod_cast hs)

/-- Claim C3, counterexample: for perfectly valid raw counts the composite
exceeds its documented bound, because the engagement rate entering it is
unbounded.  A YouTube channel with 1,000,000 views, 1 video and 1 subscriber
gets `final_score = 40000000.09 > 100`; an Instagram row with 1000 likes,
1 view and 0 followers gets `final_score = 400 > 1`. -/
theorem final_score_exceeds_documented_bound :
    youtube_final_score 1000000 1 1 = 40000000.09 ∧
    (100 : ℚ) < youtube_final_score 1000000 1 1 ∧
    instagram_final_score 1000 0 1 0 = 400 ∧
    (1 : ℚ) < instagram_final_score 1000 0 1 0 := by
  have hyt : youtube_final_score 1000000 1 1 = 40000000.09 := by
    unfold youtube_final_score
    push_cast
    have he : calc_engagement (1000000 : ℚ) 1 1 = 100000000 := by
      unfold calc_engagement
      rw [if_neg (by norm_num)]
      rw [round2_eq_of_int _ 10000000000 (by norm_num)]
      norm_num
    have hs : round3 (normalize_subscribers 1) = 0.001 := by
      have h1 : normalize_subscribers 1 = 1 / 1000 := by
        unfold normalize_subscribers
        norm_num
      rw [h1, round3_eq_of_int _ 1 (by norm_num)]
      norm_num
    have ha : round3 (clip01 ((1 : ℚ) / 500)) = 0.002 := by
      have h1 : clip01 ((1 : ℚ) / 500) = 1 / 500 := by
        unfold clip01
        norm_num
      rw [h1, round3_eq_of_int _ 2 (by norm_num)]
      norm_num
    rw [he, hs, ha]
    unfold calc_final_score
    rw [round2_eq_of_int _ 4000000009 (by norm_num)]
    norm_num
  have hig : instagram_final_score 1000 0 1 0 = 400 := by
    unfold instagram_final_score
    have he : insta_engagement_rate 1000 0 1 = 100000 := by
      unfold insta_engagement_rate
      rw [if_pos (by norm_num)]
      rw [round2_eq_of_int _ 10000000 (by norm_num)]
      norm_num
    have hf : normalize_followers 0 = 0 := by
      unfold normalize_followers
      norm_num
    rw [he, hf]
    rw [round2_eq_of_int _ 40000 (by norm_num)]
    norm_num
  refine ⟨hyt, ?_, hig, ?_⟩
  · rw [hyt]
    norm_num
  · rw [hig]
    norm_num

/-- Claim C3, amended: the composites are bounded once the engagement-rate
input is itself within its `[0,100]` scale (which raw counts do not
guarantee): with `eng ∈ [0,100]` and the other inputs in `[0,1]`,
`calc_final_score` lands in `[0,100]` and the Instagram `final_score` in
`[0,1]`; and the weight vectors `0.4/0.3/0.3` and `0.4/0.6` each sum
to 1. -/
theorem final_score_bounded_amended :
    (∀ eng subScore actScore : ℚ,
      0 ≤ eng → eng ≤ 100 → 0 ≤ subScore → subScore ≤ 1 →
      0 ≤ actScore → actScore ≤ 1 →
      0 ≤ calc_final_score eng subScore actScore ∧
        calc_final_score eng subScore actScore ≤ 100) ∧
    (∀ likes comments views followers : ℚ,
      0 ≤ likes → 0 ≤ comments → 0 ≤ followers →
      insta_engagement_rate likes comments views ≤ 100 →
      0 ≤ instagram_final_score likes comments views followers ∧
        instagram_final_score likes comments views followers ≤ 1) ∧
    ((0.4 : ℚ) + 0.3 + 0.3 = 1 ∧ (0.4 : ℚ) + 0.6 = 1) := by
  refine ⟨?_, ?_, by norm_num, by norm_num⟩
  · intro eng subScore actScore he0 he1 hs0 hs1 ha0 ha1
    unfold calc_final_score
    constructor
    · apply round2_nonneg
      nlinarith
    · have := round2_le_int (eng * 0.4 + subScore * 100 * 0.3 + actScore * 100 * 0.3)
        100 (by nlinarith)
      simpa using this
  · intro likes comments views followers hl hc hf he1
    have he0 : 0 ≤ insta_engagement_rate likes comments views :=
      insta_engagement_rate_nonneg likes comments views hl hc
    have hfs := normalize_followers_bounds followers hf
    unfold instagram_final_score
    constructor
    · apply round2_nonneg
      nlinarith [hfs.1]
    · have := round2_le_int
        (insta_engagement_rate likes comments views / 100 * 0.4
          + normalize_followers followers * 0.6) 1
        (by nlinarith [hfs.2])
      simpa using this

/-- Claim C4: evaluation of `to_domain` at the inputs that decide the claim.
The spec scenarios hold (`" http://Example.org "` and
`"HTTP://WWW.Example.com/"` normalize as documented), but the general
sentence — only a single leading `"www."` prefix is removed, the rest of the
host unchanged — is broken by the code: `host.lstrip("www.")` strips the
character set `w`/`.`, so the valid host `web.example.com` is mangled to
`eb.example.com`. -/
theorem to_domain_overstrips_www_charset :
    to_domain (some "web.example.com") = some "eb.example.com" ∧
    to_domain (some " http://Example.org ") = some "example.org" ∧
    to_domain (some "HTTP://WWW.Example.com/") = some "example.com" ∧
    to_domain (some "wwww.example.com") = some "example.com" := by
  refine ⟨?_, ?_, ?_, ?_⟩ <;> decide

/-- Claim C6: for every master dataset `D` and incoming batch `X`, the merge
(concat incoming-first, then drop duplicates by key keeping the first
occurrence) contains every key of `D` or `X` exactly once, has at most
`|D| + |X|` rows, and for every key occurring in `X` (in particular every
key occurring in both `D` and `X`) the kept row is the first incoming row
with that key — the newest write wins. -/
theorem merge_dedup_exactly_once_newest_wins (D X : List SRow) :
    (merge D X).length ≤ D.length + X.length ∧
    (∀ k, (k ∈ D.map SRow.key ∨ k ∈ X.map SRow.key) →
      (merge D X).countP (fun r => r.key == k) = 1) ∧
    (∀ k, k ∈ X.map SRow.key →
      (merge D X).find? (fun r => r.key == k) = X.find? (fun r => r.key == k)) := by
  refine ⟨?_, ?_, ?_⟩
  · have := dedupByKeyFirst_length_le (X ++ D)
    rw [List.length_append] at this
    unfold merge
    omega
  · intro k hk
    unfold merge
    rw [dedupByKeyFirst_countP, if_pos]
    rw [List.map_append, List.mem_append]
    tauto
  · intro k hk
    unfold merge
    rw [dedupByKeyFirst_find?, List.find?_append]
    obtain ⟨r, hr, hrk⟩ := List.mem_map.mp hk
    have hsome : (X.find? (fun r => r.key == k)).isSome := by
      rw [List.find?_isSome]
      exact ⟨r, hr, by simp [hrk]⟩
    cases hfx : X.find? (fun r => r.key == k) with
    | none => rw [hfx] at hsome; simp at hsome
    | some w => simp

/-- Claim C7: the merge is idempotent — `merge (merge D X) X` equals
`merge D X` in final key set and in the row kept for every key. -/
theorem merge_idempotent_keys_and_values (D X : List SRow) :
    (∀ k, k ∈ (merge (merge D X) X).map SRow.key ↔ k ∈ (merge D X).map SRow.key) ∧
    (∀ k, (merge (merge D X) X).find? (fun r => r.key == k) =
          (merge D X).find? (fun r => r.key == k)) := by
  constructor
  · intro k
    unfold merge
    rw [dedupByKeyFirst_mem_keys, dedupByKeyFirst_mem_keys,
        List.map_append, List.mem_append, List.map_append, List.mem_append]
    rw [dedupByKeyFirst_mem_keys, List.map_append, List.mem_append]
    tauto
  · intro k
    unfold merge
    rw [dedupByKeyFirst_find?, List.find?_append, dedupByKeyFirst_find?,
        List.find?_append]
    cases hfx : X.find? (fun r => r.key == k) with
    | none => simp
    | some w => simp

/-- Claim C8: progress grows monotonically.  A hunter run whose
preconditions hold completes with `ok`, and every yelp url loaded from the
progress blob at the start is still in the `processed_yelp_urls` list that
is written back at the end (keys are only ever added); likewise the TikTok
followers job writes back `sorted(list(set(old + processed_now)))`, a
superset of the loaded set. -/
theorem progress_monotonic_growth (env : HunterEnv) (store : HunterProgress)
    (db : DBState)
    (h1 : env.yelpInputGcs ≠ "") (h2 : env.downloadOk = true)
    (h3 : env.inputExists = true) (h4 : env.hasWebsiteCol = true)
    (h5 : env.hasYelpUrlCol = true) :
    (hunter_main env store db).1 = Except.ok () ∧
    (∀ u ∈ store.processedYelpUrls,
      u ∈ (hunter_main env store db).2.1.processedYelpUrls) ∧
    (∀ old now : List String, ∀ u ∈ old, u ∈ tiktok_update_processed old now) := by
  refine ⟨?_, ?_, ?_⟩
  · simp only [hunter_main]
    rw [if_neg h1, if_neg (by simp [h2]), if_neg (by simp [h3]),
        if_neg (by simp [h4]), if_neg (by simp [h5])]
  · intro u hu
    simp only [hunter_main]
    rw [if_neg h1, if_neg (by simp [h2]), if_neg (by simp [h3]),
        if_neg (by simp [h4]), if_neg (by simp [h5])]
    simp only []
    rw [mem_sortStr]
    exact foldl_hunterStep_processed_mono env.api env.rows _ u
      (by simpa [List.mem_dedup] using hu)
  · intro old now u hu
    unfold tiktok_update_processed
    rw [mem_sortStr, List.mem_dedup, List.mem_append]
    exact Or.inl hu

/-- Claim C8, witness: the monotonicity theorem applied to a concrete
passing environment, a store holding one processed url and a fresh
database. -/
theorem progress_monotonic_growth_witness :
    (hunter_main hunterEnvOk ⟨["u"], 0, 0⟩ ⟨0, [], []⟩).1 = Except.ok () ∧
    (∀ u ∈ (⟨["u"], 0, 0⟩ : HunterProgress).processedYelpUrls,
      u ∈ (hunter_main hunterEnvOk ⟨["u"], 0, 0⟩ ⟨0, [], []⟩).2.1.processedYelpUrls) ∧
    (∀ old now : List String, ∀ u ∈ old, u ∈ tiktok_update_processed old now) :=
  progress_monotonic_growth hunterEnvOk ⟨["u"], 0, 0⟩ ⟨0, [], []⟩
    (by decide) rfl rfl rfl rfl

/-- Claim C9, counterexample: the engagement rate is rounded to two decimal
places, so for non-zero denominators it does not equal the exact ratio
`(positive interactions / impressions) * 100`: one like over three views
yields `33.33`, not `100/3`. -/
theorem engagement_rate_not_exact_ratio :
    insta_engagement_rate 1 0 3 = 33.33 ∧
    (insta_engagement_rate 1 0 3 ≠ (1 + 0) / 3 * 100) ∧
    calc_engagement 1 3 1 = 33.33 ∧
    calc_engagement 1 3 1 ≠ 1 / 3 / 1 * 100 := by
  have h1 : insta_engagement_rate 1 0 3 = 33.33 := by
    unfold insta_engagement_rate
    rw [if_pos (by norm_num)]
    unfold round2 pyRoundHalfEven
    norm_num
  have h2 : calc_engagement 1 3 1 = 33.33 := by
    unfold calc_engagement
    rw [if_neg (by norm_num)]
    unfold round2 pyRoundHalfEven
    norm_num
  refine ⟨h1, ?_, h2, ?_⟩
  · rw [h1]
    norm_num
  · rw [h2]
    norm_num

/-- Claim C9, amended: the engagement-rate computations never fault on zero
denominators — they return exactly `0` when the impression count is `0`
(views in the Instagram job, total videos or subscribers in the YouTube
job) — and for non-zero denominators they equal
`(positive interactions / impressions) * 100` rounded half-to-even to two
decimal places. -/
theorem engagement_rate_zero_safe_amended :
    (∀ tv s : ℚ, calc_engagement tv 0 s = 0) ∧
    (∀ tv nv : ℚ, calc_engagement tv nv 0 = 0) ∧
    (∀ tv nv s : ℚ, nv ≠ 0 → s ≠ 0 →
      calc_engagement tv nv s = round2 (tv / (nv * s) * 100)) ∧
    (∀ likes comments : ℚ, insta_engagement_rate likes comments 0 = 0) ∧
    (∀ likes comments views : ℚ, 0 < views →
      insta_engagement_rate likes comments views =
        round2 ((likes + comments) / views * 100)) := by
  refine ⟨?_, ?_, ?_, ?_, ?_⟩
  · intro tv s
    unfold calc_engagement
    rw [if_pos (Or.inl rfl)]
  · intro tv nv
    unfold calc_engagement
    rw [if_pos (Or.inr rfl)]
  · intro tv nv s hnv hs
    unfold calc_engagement
    rw [if_neg (by tauto), div_div]
  · intro likes comments
    unfold insta_engagement_rate
    rw [if_neg (by norm_num)]
  · intro likes comments views hv
    unfold insta_engagement_rate
    rw [if_pos hv]

/-- Claim C10: after every successful YouTube run exactly one entry is
appended to the run history and the saved history keeps at most the 50 most
recent entries: the saved list has length `min (n+1) 50`, ends with the new
entry, is a suffix of the appended history (so only the oldest entries are
discarded), and equals the full appended history whenever that fits in 50. -/
theorem run_history_capped_at_50 {α : Type} (history : List α) (entry : α) :
    (append_run_history history entry).length = min (history.length + 1) 50 ∧
    (append_run_history history entry).getLast? = some entry ∧
    (append_run_history history entry) <:+ (history ++ [entry]) ∧
    (history.length + 1 ≤ 50 → append_run_history history entry = history ++ [entry]) := by
  unfold append_run_history
  refine ⟨?_, ?_, List.drop_suffix _ _, ?_⟩
  · rw [List.length_drop, List.length_append]
    simp only [List.length_singleton]
    omega
  · have hn : (history ++ [entry]).length - 50 ≤ history.length := by
      rw [List.length_append]
      simp only [List.length_singleton]
      omega
    rw [List.drop_append_of_le_length hn, List.getLast?_concat]
  · intro h
    have h0 : (history ++ [entry]).length - 50 = 0 := by
      rw [List.length_append]
      simp only [List.length_singleton]
      omega
    rw [h0, List.drop_zero]
